import Mathlib

/-!
Verification of the chrome-automation repository (src/browser_automation.py)
against its natural-language specification.

The Python functions under verification are shallowly embedded as Lean
functions.  Browser/DOM effects (Playwright calls) are the black-box
environment: the embedding takes their observable results as inputs
(e.g. the text already extracted from a cell, or the parse outcome of a
script block).  Time is idealised: a sleep of d advances the clock by
exactly d; predicate evaluation is instantaneous.
-/

/-! ### ConditionPoller: custom_wait_condition (browser_automation.py lines 358-373)

Python source:
```
start = time.time() * 1000
while (time.time() * 1000) - start < timeout:
    if condition_fn(page):
        return True
    time.sleep(poll_interval / 1000)
raise TimeoutError(f"Condition not met within ...ms")
```
The predicate is modelled as `cond : Nat → Bool`, giving the result of the
n-th evaluation (the page may change between ticks).  Elapsed time after n
sleeps is `n * poll_interval` milliseconds.  The `while` loop is embedded
with a fuel parameter bounding the number of iterations; `fuelOut` marks a
run that was given too little fuel and corresponds to no Python behaviour.
-/

/-- Observable outcome of one call to custom_wait_condition:
`satisfiedTrue` models the Python function returning True;
`raisedTimeout` models the Python function raising TimeoutError;
`fuelOut` is the artefact of the fuel-bounded embedding. -/
inductive PollOutcome where
  | satisfiedTrue
  | raisedTimeout
  | fuelOut
deriving DecidableEq

/-- Trace of one call: its outcome, how many times the predicate was
evaluated, and how many sleeps were performed. -/
structure PollTrace where
  outcome : PollOutcome
  evals : Nat
  sleeps : Nat
deriving DecidableEq

/-- One iteration of the while loop, at iteration counter n (n sleeps have
happened so far, so elapsed time is n * poll_interval). -/
def cwcLoop (cond : Nat → Bool) (timeout poll_interval : Int) : Nat → Nat → PollTrace
  | 0, _ => ⟨.fuelOut, 0, 0⟩
  | fuel + 1, n =>
    if (n : Int) * poll_interval < timeout then
      if cond n then ⟨.satisfiedTrue, 1, 0⟩
      else
        let r := cwcLoop cond timeout poll_interval fuel (n + 1)
        ⟨r.outcome, r.evals + 1, r.sleeps + 1⟩
    else ⟨.raisedTimeout, 0, 0⟩

/-- Embedding of custom_wait_condition (lines 358-373).  `timeout` and
`poll_interval` are the Python int parameters, in milliseconds. -/
def custom_wait_condition (cond : Nat → Bool) (timeout poll_interval : Int) (fuel : Nat) : PollTrace :=
  cwcLoop cond timeout poll_interval fuel 0

/-! ### PaginationCrawler: scrape_with_pagination (browser_automation.py lines 109-144)

Python source (the loop body):
```
all_items = []
for page_num in range(max_pages):
    page.wait_for_selector(item_selector)
    items = page.query_selector_all(item_selector)
    all_items.extend([item.inner_text().strip() for item in items])
    next_button = page.query_selector(next_button_selector)
    if next_button and next_button.is_visible() and next_button.is_enabled():
        next_button.click()
        page.wait_for_load_state("networkidle")
    else:
        print("No more pages")
        break
return all_items
```
The environment is a `site : Nat → CrawlPage`: after n clicks on the next
button the browser shows page n.  `scrape` is the observable result of the
wait-for-selector / query / extract steps on that page: `Except.ok items`
when they succeed (the stripped inner texts, in DOM order), `Except.error
msg` when any of them throws.  There is no try/except in the Python loop,
so a scrape error propagates out of the whole function. -/

structure CrawlPage where
  scrape : Except String (List String)
  nextPresent : Bool
  nextVisible : Bool
  nextEnabled : Bool

/-- How the crawl loop stopped: the for-loop ran out of its range
(page_num reached max_pages) or the break branch ran ("No more pages"). -/
inductive StopCause where
  | maxPagesExhausted
  | noMorePages
deriving DecidableEq

/-- Observable result of a completed crawl: the returned item list, the
number of pages scraped, the number of next-button clicks performed, and
how the loop stopped. -/
structure CrawlOk where
  all_items : List String
  pages_scraped : Nat
  clicks : Nat
  cause : StopCause
deriving DecidableEq

/-- A crawl either returns normally or an exception escapes it. -/
inductive CrawlResult where
  | ok (r : CrawlOk)
  | raised (msg : String)
deriving DecidableEq

/-- The for-loop of scrape_with_pagination; `remaining` counts the loop
iterations left in range(max_pages), `page_num` the current 0-based page
(equal to the number of clicks performed so far). -/
def crawlLoop (site : Nat → CrawlPage) : Nat → Nat → List String → Nat → CrawlResult
  | 0, page_num, acc, clicks => .ok ⟨acc, page_num, clicks, .maxPagesExhausted⟩
  | remaining + 1, page_num, acc, clicks =>
    match (site page_num).scrape with
    | .error msg => .raised msg
    | .ok items =>
      if (site page_num).nextPresent && (site page_num).nextVisible
          && (site page_num).nextEnabled then
        crawlLoop site remaining (page_num + 1) (acc ++ items) (clicks + 1)
      else .ok ⟨acc ++ items, page_num + 1, clicks, .noMorePages⟩

/-- Embedding of scrape_with_pagination (lines 109-144). -/
def scrape_with_pagination (site : Nat → CrawlPage) (max_pages : Nat) : CrawlResult :=
  crawlLoop site max_pages 0 [] 0

/-- The number of click transitions performed, when the crawl returned. -/
def clicksOf : CrawlResult → Option Nat
  | .ok r => some r.clicks
  | .raised _ => none

/-- Whether the caller receives any item list at all. -/
def returnsItems : CrawlResult → Bool
  | .ok _ => true
  | .raised _ => false

/-- The next-button test of the Python if statement on one page. -/
def nextAll (p : CrawlPage) : Bool :=
  p.nextPresent && p.nextVisible && p.nextEnabled

/-- Concrete two-page site used for claim C2: page 0 scrapes one item and
has an enabled next button; scraping page 1 throws. -/
def c2site : Nat → CrawlPage := fun n =>
  if n = 0 then ⟨.ok ["a"], true, true, true⟩ else ⟨.error "boom", true, true, true⟩

/-! ### RetryPolicy: should_retry_on_error and run_with_retry
(browser_automation.py lines 442-477)

Python source:
```
def should_retry_on_error(error_message, attempt, max_attempts):
    # YOUR IMPLEMENTATION HERE (5-10 lines)
    pass

def run_with_retry(func, *args, max_attempts=3, **kwargs):
    for attempt in range(1, max_attempts + 1):
        try:
            return func(*args, **kwargs)
        except Exception as e:
            error_msg = str(e)
            if should_retry_on_error(error_msg, attempt, max_attempts):
                print(...); time.sleep(2 ** attempt); continue
            raise
```
The operation is modelled as `func : Nat → Except String α`, giving the
result of its n-th invocation (1-indexed); `Except.error msg` models the
operation raising an exception whose str() is msg.  Sleeping is modelled
by accumulating the slept seconds. -/

/-- True when the first list is an initial segment of the second. -/
def leadsList : List Char → List Char → Bool
  | [], _ => true
  | _ :: _, [] => false
  | a :: as, b :: bs => a == b && leadsList as bs

/-- True when `needle` occurs contiguously somewhere in the list. -/
def occursIn (needle : List Char) : List Char → Bool
  | [] => leadsList needle []
  | b :: bs => leadsList needle (b :: bs) || occursIn needle bs

/-- Keyword test: `marker` occurs as a substring of `msg`. -/
def containsMarker (msg marker : String) : Bool :=
  occursIn marker.toList msg.toList

/-- The spec's error taxonomy. -/
inductive ErrorClassification where
  | Transient
  | Permanent
  | Unknown
deriving DecidableEq

/-- Markers whose presence makes an error Permanent.  Modelled from the
spec: markers indicating not-found/forbidden/unauthorized/validation (the
source's hint comment also names "404"). -/
def permanentMarkers : List String :=
  ["not found", "forbidden", "unauthorized", "validation", "404"]

/-- Markers whose presence makes an error Transient.  Modelled from the
spec: markers indicating network/timeout/connection-reset. -/
def transientMarkers : List String :=
  ["network", "timeout", "connection"]

/-- Modelled from the spec: the classification logic of
should_retry_on_error is missing from the source (the body is the single
statement `pass`, a stub the repository leaves unimplemented).  The spec
specifies a deterministic keyword classifier over the error's textual
signature: Permanent markers dominate, then Transient markers, anything
unmatched is Unknown.  The classification depends only on the message,
never on the attempt number. -/
def classify (error_message : String) : ErrorClassification :=
  if permanentMarkers.any (fun m => containsMarker error_message m) then .Permanent
  else if transientMarkers.any (fun m => containsMarker error_message m) then .Transient
  else .Unknown

/-- Embedding of should_retry_on_error as the source has it (lines
442-463): the body is `pass`, so every call returns None.  run_with_retry
uses the returned value as the condition of an if statement, where None is
falsy, so as a retry decision the stub is constantly false. -/
def should_retry_on_error (error_message : String) (attempt max_attempts : Nat) : Bool :=
  false

/-- A retry-decision policy, abstracting the should_retry_on_error call
inside run_with_retry: message, attempt (1-indexed), max_attempts. -/
def RetryPolicyFn : Type := String → Nat → Nat → Bool

/-- Observable outcome of run_with_retry: `ok` models returning the
operation's value, `raised` models the bare `raise` re-raising the last
exception, `returnedNone` models the for-loop completing without a return
or raise, in which case the Python function returns None. -/
inductive RetryOutcome (α : Type) where
  | ok (a : α)
  | raised (msg : String)
  | returnedNone
deriving DecidableEq

/-- Trace of one run_with_retry call: its outcome, how many times the
operation was invoked, and the total seconds slept in backoff. -/
structure RetryTrace (α : Type) where
  outcome : RetryOutcome α
  invocations : Nat
  slept : Nat
deriving DecidableEq

/-- The for-loop of run_with_retry: `remaining` iterations left in
range(1, max_attempts + 1), `attempt` the current 1-indexed attempt.  On a
retried failure the code sleeps `2 ** attempt` seconds. -/
def retryLoop {α : Type} (pol : RetryPolicyFn) (func : Nat → Except String α)
    (max_attempts : Nat) : Nat → Nat → RetryTrace α
  | 0, _ => ⟨.returnedNone, 0, 0⟩
  | remaining + 1, attempt =>
    match func attempt with
    | .ok a => ⟨.ok a, 1, 0⟩
    | .error msg =>
      if pol msg attempt max_attempts then
        let t := retryLoop pol func max_attempts remaining (attempt + 1)
        ⟨t.outcome, t.invocations + 1, t.slept + 2 ^ attempt⟩
      else ⟨.raised msg, 1, 0⟩

/-- run_with_retry with its retry decision abstracted. -/
def run_with_retry_core {α : Type} (pol : RetryPolicyFn) (func : Nat → Except String α)
    (max_attempts : Nat) : RetryTrace α :=
  retryLoop pol func max_attempts max_attempts 1

/-- Embedding of run_with_retry (lines 466-477), wired to the repository's
actual should_retry_on_error stub. -/
def run_with_retry {α : Type} (func : Nat → Except String α) (max_attempts : Nat) :
    RetryTrace α :=
  run_with_retry_core (fun msg a m => should_retry_on_error msg a m) func max_attempts

/-- The retry row of the spec's decision table for a retryable error:
retry exactly while attempts remain (attempt < max_attempts). -/
def retry_while_attempts_remain (msg : String) (attempt max_attempts : Nat) : Bool :=
  decide (attempt < max_attempts)

/-! ### StructuredExtractor, tabular mode: scrape_table_data
(browser_automation.py lines 45-72)

Python source (after the DOM reads):
```
header_names = [h.inner_text().strip() for h in headers]
for row in rows:
    cells = row.query_selector_all("td")
    row_data = {}
    for i, cell in enumerate(cells):
        if i < len(header_names):
            row_data[header_names[i]] = cell.inner_text().strip()
    data.append(row_data)
```
Inputs are the already-extracted strings: the stripped header texts and,
per data row, the stripped cell texts.  A Python dict is modelled as an
insertion-ordered association list: assigning to an existing key updates
the value in place, assigning a fresh key appends. -/

/-- Python dict assignment d[k] = v on an insertion-ordered assoc list. -/
def dictInsert (d : List (String × String)) (k v : String) : List (String × String) :=
  if d.any (fun p => p.1 == k) then
    d.map (fun p => if p.1 == k then (p.1, v) else p)
  else d ++ [(k, v)]

/-- Body of the inner for-loop of scrape_table_data for one enumerated
cell (index, text): assign header_names[i] only when i is in range. -/
def rowStep (header_names : List String) (row_data : List (String × String))
    (ic : Nat × String) : List (String × String) :=
  if h : ic.1 < header_names.length then
    dictInsert row_data (header_names.get ⟨ic.1, h⟩) ic.2
  else row_data

/-- The dict built for one data row. -/
def row_record (header_names cells : List String) : List (String × String) :=
  cells.enum.foldl (rowStep header_names) []

/-- Embedding of scrape_table_data (lines 45-72): one record per row, in
row order. -/
def scrape_table_data (header_names : List String) (rows : List (List String)) :
    List (List (String × String)) :=
  rows.map (row_record header_names)

/-- Index-free reformulation of the inner loop, walking headers and cells
together (proved equal to the enumerate-based fold below). -/
def rowWalk : List String → List String → List (String × String) → List (String × String)
  | _, [], acc => acc
  | [], _ :: cs, acc => rowWalk [] cs acc
  | h :: hs, c :: cs, acc => rowWalk hs cs (dictInsert acc h c)

/-! ### Output serialization: save_to_csv and save_to_json
(browser_automation.py lines 389-403)

Python source:
```
def save_to_csv(data, filename):
    if not data:
        return
    with open(filename, ...) as f:
        writer = csv.DictWriter(f, fieldnames=data[0].keys())
        writer.writeheader()
        writer.writerows(data)

def save_to_json(data, filename):
    with open(filename, ...) as f:
        json.dump(data, f, indent=2, ensure_ascii=False)
```
The CSV file is modelled at row granularity as (header row, data rows);
csv quoting makes the cell-to-text step faithful for arbitrary strings.
DictWriter semantics: the column set is the FIRST record's key sequence;
a record with a key outside it raises ValueError (extrasaction defaults
to raise); a record missing a column writes the restval, the empty
string.  Reading back (csv.DictReader) pairs the header row with each
data row.  The JSON side is modelled as a nested-value tree `Jval`
(array of mappings of strings), with the loader inverting the dump. -/

/-- The key sequence of a record (Python dict insertion order). -/
def record_keys (r : List (String × String)) : List String := r.map Prod.fst

/-- Python d.get(k, "") on the assoc-list dict model. -/
def lookupD (r : List (String × String)) (k : String) : String :=
  match r.find? (fun p => p.1 == k) with
  | some p => p.2
  | none => ""

/-- DictWriter.writerow for one record under the given column list. -/
def writeRow (fieldnames : List String) (r : List (String × String)) :
    Except String (List String) :=
  if r.all (fun p => fieldnames.contains p.1) then
    Except.ok (fieldnames.map (fun k => lookupD r k))
  else Except.error "ValueError"

/-- Embedding of save_to_csv (lines 389-397): `none` models the early
return that writes no file at all for empty data; otherwise the produced
file is the header row (the first record's keys) and one data row per
record; a ValueError from DictWriter propagates. -/
def save_to_csv (data : List (List (String × String))) :
    Except String (Option (List String × List (List String))) :=
  match data with
  | [] => .ok none
  | r0 :: _ =>
    match data.mapM (writeRow (record_keys r0)) with
    | .error e => .error e
    | .ok rows => .ok (some (record_keys r0, rows))

/-- csv.DictReader of the produced file: each data row paired with the
header row. -/
def csv_read (fieldnames : List String) (rows : List (List String)) :
    List (List (String × String)) :=
  rows.map (fun row => fieldnames.zip row)

/-- Serialize with save_to_csv, then deserialize; an absent file reads as
no records. -/
def csv_round_trip (data : List (List (String × String))) :
    Except String (List (List (String × String))) :=
  match save_to_csv data with
  | .error e => .error e
  | .ok none => .ok []
  | .ok (some (fn, rows)) => .ok (csv_read fn rows)

/-- A JSON-like nested value: string leaves, mappings, arrays. -/
inductive Jval where
  | str (s : String)
  | obj (fields : List (String × Jval))
  | arr (elems : List Jval)

/-- json.dump of a record sequence (save_to_json, lines 400-403): an array
of string-to-string mappings, in order. -/
def json_dump (data : List (List (String × String))) : Jval :=
  .arr (data.map (fun r => .obj (r.map (fun p => (p.1, .str p.2)))))

/-- Reading one field of a dumped record back. -/
def json_field_back : String × Jval → Option (String × String)
  | (k, .str v) => some (k, v)
  | (_, .obj _) => none
  | (_, .arr _) => none

/-- Reading one dumped record back. -/
def json_record_back : Jval → Option (List (String × String))
  | .obj fields => fields.mapM json_field_back
  | _ => none

/-- json.load of the produced file, decoded back to a record sequence. -/
def json_load_records : Jval → Option (List (List (String × String)))
  | .arr elems => elems.mapM json_record_back
  | _ => none

/-! ### StructuredExtractor, embedded-structured-data mode:
extract_structured_data (browser_automation.py lines 147-165)

Python source:
```
scripts = page.query_selector_all('script[type="application/ld+json"]')
for script in scripts:
    try:
        content = script.inner_text()
        return json.loads(content)
    except json.JSONDecodeError:
        continue
return {}
```
The environment supplies, per script block in page order, the outcome of
json.loads on its content: `some v` for a parseable payload, `none` for a
malformed one (json.loads raising JSONDecodeError). -/

/-- Embedding of extract_structured_data (lines 147-165): first
successfully parsed block, else the empty dict. -/
def extract_structured_data (parses : List (Option Jval)) : Jval :=
  match parses with
  | [] => .obj []
  | some v :: _ => v
  | none :: rest => extract_structured_data rest

theorem cwcLoop_never_true (cond : Nat → Bool) (timeout poll_interval : Int)
    (hc : ∀ k, cond k = false) :
    ∀ (fuel n : Nat), timeout ≤ ((n : Int) + (fuel : Int)) * poll_interval →
      (cwcLoop cond timeout poll_interval (fuel + 1) n).outcome = .raisedTimeout := by
  intro fuel
  induction fuel with
  | zero =>
    intro n hn
    simp only [Int.natCast_zero, Int.add_zero] at hn
    simp only [cwcLoop]
    rw [if_neg (by omega)]
  | succ fuel ih =>
    intro n hn
    show (cwcLoop cond timeout poll_interval (fuel + 1 + 1) n).outcome = .raisedTimeout
    rw [cwcLoop]
    by_cases hlt : (n : Int) * poll_interval < timeout
    · rw [if_pos hlt, hc n]
      simp only [Bool.false_eq_true, if_false]
      have := ih (n + 1) (by push_cast; push_cast at hn; linarith)
      simpa using this
    · rw [if_neg hlt]

/-- C4: the claim states that for timeoutMs <= 0 the predicate is evaluated
exactly once and the call returns immediately with Satisfied or TimedOut.
On the code this is false: with timeout <= 0 the while condition
`elapsed < timeout` is already false at entry, so the predicate is
evaluated ZERO times and TimeoutError is raised.  Concrete input: a
predicate that is constantly true, timeout = 0, poll_interval = 100.  The
claim predicts one evaluation (and a Satisfied return); the code performs
no evaluation and raises. -/
theorem claim_C4_counterexample :
    custom_wait_condition (fun _ => true) 0 100 10 = ⟨.raisedTimeout, 0, 0⟩ ∧
    (custom_wait_condition (fun _ => true) 0 100 10).evals ≠ 1 := by
  constructor
  · rfl
  · intro h
    simp [custom_wait_condition, cwcLoop] at h

/-- C4 (amended): for every timeoutMs <= 0, custom_wait_condition evaluates
the predicate zero times, performs no sleep, and raises TimeoutError
immediately (for any positive fuel, since the loop body is never entered). -/
theorem claim_C4_amended (cond : Nat → Bool) (timeout poll_interval : Int) (fuel : Nat)
    (h : timeout ≤ 0) :
    custom_wait_condition cond timeout poll_interval (fuel + 1) = ⟨.raisedTimeout, 0, 0⟩ := by
  unfold custom_wait_condition cwcLoop
  rw [if_neg (by push_cast; omega)]

/-- C4 (amended) witness: at timeout = 0, poll_interval = 100, fuel = 9. -/
theorem claim_C4_amended_witness :
    (0 : Int) ≤ 0 ∧
    custom_wait_condition (fun _ => true) 0 100 10 = ⟨.raisedTimeout, 0, 0⟩ :=
  ⟨le_refl 0, claim_C4_amended (fun _ => true) 0 100 9 (le_refl 0)⟩

/-- C5: the claim states that when the deadline passes without the predicate
ever returning true, poll signals TimedOut as an ordinary returned value and
never raises an exception.  On the code this is false: the only normal
return of custom_wait_condition is `return True`; deadline expiry executes
`raise TimeoutError(...)`.  Concrete input: constantly-false predicate,
timeout = 100 ms, poll_interval = 30 ms: after evaluations at elapsed
0, 30, 60, 90 ms the loop exits and raises. -/
theorem claim_C5_counterexample :
    (custom_wait_condition (fun _ => false) 100 30 10).outcome = .raisedTimeout ∧
    (custom_wait_condition (fun _ => false) 100 30 10).outcome ≠ .satisfiedTrue ∧
    (custom_wait_condition (fun _ => false) 100 30 10).evals = 4 := by
  refine ⟨rfl, ?_, rfl⟩
  intro h
  simp [custom_wait_condition, cwcLoop] at h

/-- C5 (amended): if the deadline passes without the predicate ever
returning true, custom_wait_condition raises TimeoutError — an exception
propagated to the caller, not a returned value; a caller that wants to
treat the timeout as recoverable must catch the exception. -/
theorem claim_C5_amended (cond : Nat → Bool) (timeout poll_interval : Int) (fuel : Nat)
    (hc : ∀ k, cond k = false) (hf : timeout ≤ (fuel : Int) * poll_interval) :
    (custom_wait_condition cond timeout poll_interval (fuel + 1)).outcome = .raisedTimeout := by
  unfold custom_wait_condition
  exact cwcLoop_never_true cond timeout poll_interval hc fuel 0 (by push_cast; linarith)

/-- C5 (amended) witness: constantly-false predicate, timeout 100, interval
30, fuel 4 (100 <= 4 * 30). -/
theorem claim_C5_amended_witness :
    (∀ k : Nat, (fun _ : Nat => false) k = false) ∧
    (custom_wait_condition (fun _ => false) 100 30 5).outcome = .raisedTimeout :=
  ⟨fun _ => rfl, claim_C5_amended (fun _ => false) 100 30 4 (fun _ => rfl) (by norm_num)⟩

theorem crawlLoop_shift (site : Nat → CrawlPage) (msg : String) :
    ∀ (k remaining page0 : Nat) (acc : List String) (clicks : Nat),
      k < remaining →
      (∀ j, j < k → ∃ its, (site (page0 + j)).scrape = Except.ok its) →
      (∀ j, j < k → nextAll (site (page0 + j)) = true) →
      (site (page0 + k)).scrape = Except.error msg →
      crawlLoop site remaining page0 acc clicks = .raised msg := by
  intro k
  induction k with
  | zero =>
    intro remaining page0 acc clicks hk _ _ herr
    obtain ⟨r, rfl⟩ : ∃ r, remaining = r + 1 := ⟨remaining - 1, by omega⟩
    rw [Nat.add_zero] at herr
    rw [crawlLoop, herr]
  | succ k ih =>
    intro remaining page0 acc clicks hk hok hnext herr
    obtain ⟨r, rfl⟩ : ∃ r, remaining = r + 1 := ⟨remaining - 1, by omega⟩
    obtain ⟨its, hits⟩ := hok 0 (Nat.succ_pos k)
    rw [Nat.add_zero] at hits
    have hn := hnext 0 (Nat.succ_pos k)
    rw [Nat.add_zero] at hn
    rw [crawlLoop]
    unfold nextAll at hn
    simp only [hits, hn, if_true]
    apply ih r (page0 + 1) (acc ++ its) (clicks + 1) (by omega)
    · intro j hj
      have := hok (j + 1) (by omega)
      rwa [show page0 + (j + 1) = page0 + 1 + j by omega] at this
    · intro j hj
      have := hnext (j + 1) (by omega)
      rwa [show page0 + (j + 1) = page0 + 1 + j by omega] at this
    · rwa [show page0 + 1 + k = page0 + (k + 1) by omega]

/-- C2: the claim states that a failure raised while scraping a single page
is absorbed, the page contributes zero items, the crawl continues, and all
items from earlier pages are still returned.  On the code this is false:
the loop body has no try/except, so the exception raised while scraping
page 1 of `c2site` propagates out of scrape_with_pagination and the caller
receives no items at all — the item scraped from page 0 is lost. -/
theorem claim_C2_counterexample :
    scrape_with_pagination c2site 3 = .raised "boom" ∧
    returnsItems (scrape_with_pagination c2site 3) = false := by
  constructor <;> rfl

/-- C2 (amended): if every page before page k scrapes successfully with an
enabled next control and scraping page k (k < maxPages) throws, the
exception propagates out of the crawl: the result is the raised exception,
and none of the items collected from pages 0..k-1 are returned. -/
theorem claim_C2_amended (site : Nat → CrawlPage) (max_pages k : Nat) (msg : String)
    (hk : k < max_pages)
    (hok : ∀ j, j < k → ∃ its, (site j).scrape = Except.ok its)
    (hnext : ∀ j, j < k → nextAll (site j) = true)
    (herr : (site k).scrape = Except.error msg) :
    scrape_with_pagination site max_pages = .raised msg ∧
    returnsItems (scrape_with_pagination site max_pages) = false := by
  have h : scrape_with_pagination site max_pages = .raised msg := by
    apply crawlLoop_shift site msg k max_pages 0 [] 0 hk
    · intro j hj; simpa using hok j hj
    · intro j hj; simpa using hnext j hj
    · simpa using herr
  exact ⟨h, by rw [h]; rfl⟩

/-- C2 (amended) witness: `c2site` with maxPages = 3 and the failure on
page k = 1. -/
theorem claim_C2_amended_witness :
    (1 < 3 ∧ (c2site 1).scrape = Except.error "boom") ∧
    scrape_with_pagination c2site 3 = .raised "boom" :=
  ⟨⟨by omega, rfl⟩,
    (claim_C2_amended c2site 3 1 "boom" (by omega)
      (fun j hj => ⟨["a"], by interval_cases j; rfl⟩)
      (fun j hj => by interval_cases j; rfl)
      rfl).1⟩

/-- C1: the claim states that with maxPages = 3 and a next control that is
present, visible and enabled on every page, the crawl scrapes exactly 3
pages and performs exactly 2 next-button clicks, the limit being checked
before clicking.  On the code this is false: the loop checks nothing
before clicking — it clicks whenever the button is usable, including right
after scraping the third (last allowed) page, so 3 clicks are performed. -/
theorem claim_C1_counterexample :
    scrape_with_pagination (fun _ => ⟨.ok ["item"], true, true, true⟩) 3 =
      .ok ⟨["item", "item", "item"], 3, 3, .maxPagesExhausted⟩ ∧
    clicksOf (scrape_with_pagination (fun _ => ⟨.ok ["item"], true, true, true⟩) 3) ≠ some 2 := by
  refine ⟨rfl, ?_⟩
  intro h
  simp [scrape_with_pagination, crawlLoop, clicksOf] at h

/-- C1 (amended): with maxPages = 3 and a next control present, visible and
enabled on every page, the crawl scrapes exactly 3 pages in order and
performs exactly 3 next-button clicks — the click also fires after the
last allowed page, because the code checks the page budget only at the top
of the loop — and stops because the for-loop range is exhausted (the
code's analogue of MaxPagesReached). -/
theorem claim_C1_amended (site : Nat → CrawlPage) (f : Nat → List String)
    (hok : ∀ n, (site n).scrape = Except.ok (f n))
    (hnext : ∀ n, nextAll (site n) = true) :
    scrape_with_pagination site 3 =
      .ok ⟨f 0 ++ f 1 ++ f 2, 3, 3, .maxPagesExhausted⟩ := by
  have h0 := hnext 0; have h1 := hnext 1; have h2 := hnext 2
  simp only [nextAll, Bool.and_eq_true] at h0 h1 h2
  simp [scrape_with_pagination, crawlLoop, hok 0, hok 1, hok 2,
    h0.1.1, h0.1.2, h0.2, h1.1.1, h1.1.2, h1.2, h2.1.1, h2.1.2, h2.2]

/-- C1 (amended) witness: the constant site with one item per page and an
always-usable next button. -/
theorem claim_C1_amended_witness :
    (∀ n : Nat, ((fun _ => (⟨.ok ["item"], true, true, true⟩ : CrawlPage)) n).scrape =
        Except.ok ["item"]) ∧
    scrape_with_pagination (fun _ => ⟨.ok ["item"], true, true, true⟩) 3 =
      .ok ⟨["item", "item", "item"], 3, 3, .maxPagesExhausted⟩ :=
  ⟨fun _ => rfl, by
    have h := claim_C1_amended (fun _ => ⟨.ok ["item"], true, true, true⟩)
      (fun _ => ["item"]) (fun _ => rfl) (fun _ => rfl)
    simpa using h⟩

theorem retryLoop_always_fail (msg : String) (max_attempts : Nat) :
    ∀ (r attempt : Nat), 1 ≤ attempt → attempt + r = max_attempts →
      retryLoop retry_while_attempts_remain
          (fun _ => (Except.error msg : Except String Nat)) max_attempts (r + 1) attempt
        = ⟨.raised msg, r + 1, 2 ^ max_attempts - 2 ^ attempt⟩ := by
  intro r
  induction r with
  | zero =>
    intro attempt h1 hsum
    rw [Nat.add_zero] at hsum
    subst hsum
    rw [retryLoop]
    have hpol : retry_while_attempts_remain msg attempt attempt = false := by
      simp [retry_while_attempts_remain]
    simp [hpol]
  | succ r ih =>
    intro attempt h1 hsum
    rw [retryLoop]
    have hlt : attempt < max_attempts := by omega
    have hpol : retry_while_attempts_remain msg attempt max_attempts = true := by
      simp [retry_while_attempts_remain, hlt]
    simp only [hpol, if_true]
    rw [ih (attempt + 1) (by omega) (by omega)]
    have hpow : 2 ^ (attempt + 1) ≤ 2 ^ max_attempts :=
      Nat.pow_le_pow_right (by omega) (by omega)
    have hsucc : 2 ^ (attempt + 1) = 2 * 2 ^ attempt := by
      rw [Nat.pow_succ]; omega
    have hsub : 2 ^ max_attempts - 2 ^ (attempt + 1) + 2 ^ attempt
        = 2 ^ max_attempts - 2 ^ attempt := by omega
    simp [hsub]

/-- C3: the claim states that for an operation failing with a Transient
error on every invocation, run_with_retry invokes it exactly maxAttempts
times and then raises ExhaustedRetries wrapping the last failure.  The
code cannot do this: should_retry_on_error is an unimplemented stub (its
body is `pass`, contradicting its own docstring "Returns: True if should
retry, False otherwise" and the TODO "Implement your retry logic here!"),
so it returns None, the if test in run_with_retry is always falsy, and the
very first failure is re-raised bare.  At the failing input — an operation
that always raises "connection timeout", max_attempts = 3 — the operation
is invoked exactly once, nothing is slept, and the original exception (not
an ExhaustedRetries wrapper, which exists nowhere in the repository)
propagates. -/
theorem claim_C3_bug :
    run_with_retry (fun _ => (Except.error "connection timeout" : Except String Nat)) 3
      = ⟨.raised "connection timeout", 1, 0⟩ ∧
    (run_with_retry (fun _ => (Except.error "connection timeout" : Except String Nat)) 3).invocations
      ≠ 3 := by
  constructor
  · rfl
  · intro h
    simp [run_with_retry, run_with_retry_core, retryLoop, should_retry_on_error] at h

/-- C6: the claim states the backoff delay before attempt k+1 is
base * 2^k capped at a configurable ceiling, bounding the total sleep.  On
the code this is false: `time.sleep(2 ** attempt)` has no cap of any kind,
so — substituting the spec's retry-while-attempts-remain decision for the
unimplemented stub so that the sleeps are actually reached — the total
time slept by run_with_retry on an always-failing operation is unbounded
as maxAttempts grows; no ceiling value bounds every run. -/
theorem claim_C6_counterexample :
    ¬ ∃ c : Nat, ∀ m : Nat,
      (run_with_retry_core retry_while_attempts_remain
        (fun _ => (Except.error "timeout" : Except String Nat)) m).slept ≤ c := by
  rintro ⟨c, hc⟩
  have h := hc (c + 2)
  have hrun : run_with_retry_core retry_while_attempts_remain
      (fun _ => (Except.error "timeout" : Except String Nat)) (c + 2)
      = ⟨.raised "timeout", c + 2, 2 ^ (c + 2) - 2⟩ := by
    have := retryLoop_always_fail "timeout" (c + 2) (c + 1) 1 (by omega) (by omega)
    simpa [run_with_retry_core, pow_one] using this
  rw [hrun] at h
  have hbig : c + 2 < 2 ^ (c + 2) := Nat.lt_two_pow (c + 2)
  simp only at h
  omega

/-- C6 (amended): the delay slept before attempt k+1 is 2^k seconds
(exponential, base coefficient 1) with NO cap; with the spec's
retry-while-attempts-remain decision in place of the unimplemented stub,
an always-failing operation under maxAttempts = m sleeps a total of
2^1 + ... + 2^(m-1) = 2^m - 2 seconds — bounded only because the attempt
count is finite, not by any configurable ceiling (1022 s for m = 10). -/
theorem claim_C6_amended (msg : String) (m : Nat) (hm : 1 ≤ m) :
    run_with_retry_core retry_while_attempts_remain
        (fun _ => (Except.error msg : Except String Nat)) m
      = ⟨.raised msg, m, 2 ^ m - 2⟩ := by
  have := retryLoop_always_fail msg m (m - 1) 1 (by omega) (by omega)
  rw [show m - 1 + 1 = m by omega] at this
  simpa [run_with_retry_core, pow_one] using this

/-- C6 (amended) witness: maxAttempts = 10 sleeps 1022 seconds in total. -/
theorem claim_C6_amended_witness :
    1 ≤ 10 ∧
    run_with_retry_core retry_while_attempts_remain
        (fun _ => (Except.error "timeout" : Except String Nat)) 10
      = ⟨.raised "timeout", 10, 1022⟩ :=
  ⟨by omega, by
    have h := claim_C6_amended "timeout" 10 (by omega)
    norm_num at h
    exact h⟩

/-- C7: every error message containing a Permanent marker classifies as
Permanent (the Permanent test dominates), a message with no Permanent
marker but a Transient marker classifies as Transient, and anything
unmatched classifies as Unknown; `classify` is a function of the message
text alone, so the result cannot depend on the attempt number.  The
classifier is modelled from the spec because the source leaves
should_retry_on_error an unimplemented stub. -/
theorem claim_C7 (msg : String) :
    (permanentMarkers.any (fun m => containsMarker msg m) = true →
      classify msg = .Permanent) ∧
    (permanentMarkers.any (fun m => containsMarker msg m) = false →
      transientMarkers.any (fun m => containsMarker msg m) = true →
      classify msg = .Transient) ∧
    (permanentMarkers.any (fun m => containsMarker msg m) = false →
      transientMarkers.any (fun m => containsMarker msg m) = false →
      classify msg = .Unknown) := by
  refine ⟨fun h => ?_, fun h1 h2 => ?_, fun h1 h2 => ?_⟩
  · simp [classify, h]
  · simp [classify, h1, h2]
  · simp [classify, h1, h2]

/-- C7 witness: "error 403 forbidden" holds a Permanent marker and
classifies Permanent; "network connection reset by peer" holds no
Permanent marker, holds a Transient marker, and classifies Transient;
"weird failure" matches nothing and classifies Unknown. -/
theorem claim_C7_witness :
    (permanentMarkers.any (fun m => containsMarker "error 403 forbidden" m) = true ∧
      classify "error 403 forbidden" = .Permanent) ∧
    (transientMarkers.any (fun m => containsMarker "network connection reset by peer" m) = true ∧
      classify "network connection reset by peer" = .Transient) ∧
    classify "weird failure" = .Unknown :=
  ⟨⟨by decide, (claim_C7 "error 403 forbidden").1 (by decide)⟩,
    ⟨by decide, (claim_C7 "network connection reset by peer").2.1 (by decide) (by decide)⟩,
    (claim_C7 "weird failure").2.2 (by decide) (by decide)⟩

theorem row_foldl_eq_walk (header_names : List String) :
    ∀ (cells : List String) (n : Nat) (acc : List (String × String)),
      (cells.enumFrom n).foldl (rowStep header_names) acc
        = rowWalk (header_names.drop n) cells acc := by
  intro cells
  induction cells with
  | nil =>
    intro n acc
    cases header_names.drop n <;> rfl
  | cons c cs ih =>
    intro n acc
    by_cases hn : n < header_names.length
    · rw [List.drop_eq_getElem_cons hn]
      show List.foldl (rowStep header_names) (rowStep header_names acc (n, c))
          (cs.enumFrom (n + 1)) = _
      rw [ih (n + 1) (rowStep header_names acc (n, c))]
      have : rowStep header_names acc (n, c)
          = dictInsert acc (header_names.get ⟨n, hn⟩) c := by
        simp [rowStep, hn]
      rw [this, rowWalk]
      simp [List.get_eq_getElem]
    · have hdrop : header_names.drop n = [] := List.drop_eq_nil_of_le (by omega)
      have hdrop1 : header_names.drop (n + 1) = [] := List.drop_eq_nil_of_le (by omega)
      rw [hdrop]
      show List.foldl (rowStep header_names) (rowStep header_names acc (n, c))
          (cs.enumFrom (n + 1)) = _
      have hstep : rowStep header_names acc (n, c) = acc := by
        simp [rowStep, hn]
      rw [hstep, ih (n + 1) acc, hdrop1, rowWalk]

theorem rowWalk_zip :
    ∀ (cs hs : List String) (acc : List (String × String)),
      hs.Nodup → (∀ k ∈ hs, acc.any (fun p => p.1 == k) = false) →
      rowWalk hs cs acc = acc ++ hs.zip cs := by
  intro cs
  induction cs with
  | nil =>
    intro hs acc _ _
    cases hs <;> simp [rowWalk]
  | cons c cs ih =>
    intro hs acc hnd hfresh
    cases hs with
    | nil =>
      rw [rowWalk]
      have := ih [] acc (by simp) (by simp)
      simpa using this
    | cons h hs =>
      rw [rowWalk]
      have hfh : acc.any (fun p => p.1 == h) = false := hfresh h (by simp)
      have hins : dictInsert acc h c = acc ++ [(h, c)] := by
        simp [dictInsert, hfh]
      rw [hins]
      have hnotmem : h ∉ hs := by simp [List.nodup_cons] at hnd; exact hnd.1
      have hfresh2 : ∀ k ∈ hs, (acc ++ [(h, c)]).any (fun p => p.1 == k) = false := by
        intro k hk
        rw [List.any_append]
        have h1 : acc.any (fun p => p.1 == k) = false := hfresh k (by simp [hk])
        have h2 : (h == k) = false := by
          rw [beq_eq_false_iff_ne]
          intro he
          exact hnotmem (he ▸ hk)
        simp [h1, h2]
      rw [ih hs (acc ++ [(h, c)]) (by simp [List.nodup_cons] at hnd; exact hnd.2) hfresh2]
      simp

theorem record_keys_dictInsert (d : List (String × String)) (h v k : String) :
    k ∈ record_keys (dictInsert d h v) ↔ k ∈ record_keys d ∨ k = h := by
  unfold dictInsert
  by_cases hany : d.any (fun p => p.1 == h) = true
  · rw [if_pos hany]
    have hkeys : record_keys (d.map (fun p => if p.1 == h then (p.1, v) else p))
        = record_keys d := by
      unfold record_keys
      rw [List.map_map]
      apply List.map_congr_left
      intro p _
      show (if p.1 == h then (p.1, v) else p).1 = p.1
      split <;> rfl
    rw [hkeys]
    have hmem : h ∈ record_keys d := by
      rw [List.any_eq_true] at hany
      obtain ⟨p, hp, hph⟩ := hany
      have hph2 : p.1 = h := by simpa using hph
      exact hph2 ▸ List.mem_map_of_mem Prod.fst hp
    constructor
    · exact Or.inl
    · rintro (hk | rfl)
      · exact hk
      · exact hmem
  · rw [if_neg hany]
    unfold record_keys
    simp

theorem rowWalk_keys :
    ∀ (cs hs : List String) (acc : List (String × String)) (k : String),
      k ∈ record_keys (rowWalk hs cs acc) ↔ k ∈ record_keys acc ∨ k ∈ hs.take cs.length := by
  intro cs
  induction cs with
  | nil =>
    intro hs acc k
    cases hs <;> simp [rowWalk]
  | cons c cs ih =>
    intro hs acc k
    cases hs with
    | nil =>
      rw [rowWalk, ih [] acc k]
      simp
    | cons h hs =>
      rw [rowWalk, ih hs (dictInsert acc h c) k, record_keys_dictInsert]
      simp only [List.length_cons, List.take_succ_cons, List.mem_cons]
      tauto

theorem rowWalk_take :
    ∀ (cs hs : List String) (acc : List (String × String)),
      rowWalk hs cs acc = rowWalk hs (cs.take hs.length) acc := by
  intro cs
  induction cs with
  | nil => intro hs acc; simp
  | cons c cs ih =>
    intro hs acc
    cases hs with
    | nil =>
      rw [rowWalk, ih [] acc]
      simp [rowWalk]
    | cons h hs =>
      simp only [List.length_cons, List.take_succ_cons, rowWalk]
      exact ih hs (dictInsert acc h c)

/-- C8: for EVERY header list and every sequence of data rows,
scrape_table_data produces exactly one record per data row in row order
(length preserved, and each row's record sits at that row's position,
surrounded by the records of the preceding and following rows); the
record built for a row has as keys exactly the leading headers that have
a cell — so a short row populates only the available ones, duplicate
header names collapsing into a single dict key by Python assignment
semantics; cells beyond the header count are dropped (the record depends
only on the first len(headers) cells); and for a duplicate-free header
list the record is exactly the positional zip of headers with cells
(e.g. headers Name, Price with row Widget give the record mapping Name
to Widget, with no Price key and no error). -/
theorem claim_C8 (header_names : List String) (rows : List (List String)) :
    ((scrape_table_data header_names rows).length = rows.length ∧
      ∀ pre cells post, rows = pre ++ cells :: post →
        scrape_table_data header_names rows
          = scrape_table_data header_names pre
            ++ row_record header_names cells :: scrape_table_data header_names post) ∧
    (∀ cells k, k ∈ record_keys (row_record header_names cells) ↔
        k ∈ header_names.take cells.length) ∧
    (∀ cells, row_record header_names cells
        = row_record header_names (cells.take header_names.length)) ∧
    (header_names.Nodup →
      scrape_table_data header_names rows = rows.map (fun cells => header_names.zip cells)) := by
  have hwalk : ∀ cells, row_record header_names cells = rowWalk header_names cells [] := by
    intro cells
    have := row_foldl_eq_walk header_names cells 0 []
    simpa [row_record, List.enum] using this
  refine ⟨⟨?_, ?_⟩, ?_, ?_, ?_⟩
  · simp [scrape_table_data]
  · intro pre cells post h
    subst h
    simp [scrape_table_data]
  · intro cells k
    rw [hwalk cells, rowWalk_keys cells header_names [] k]
    simp [record_keys]
  · intro cells
    rw [hwalk cells, hwalk (cells.take header_names.length)]
    exact rowWalk_take cells header_names []
  · intro hnd
    have hrec : ∀ cells, row_record header_names cells = header_names.zip cells := by
      intro cells
      rw [hwalk cells, rowWalk_zip cells header_names [] hnd (by simp)]
      simp
    unfold scrape_table_data
    exact List.map_congr_left (fun cells _ => hrec cells)

/-- C8 witness: the spec's own example — headers Name, Price and the short
row Widget yield the single record mapping Name to Widget, and Price is
not among its keys because the take-1 list of leading headers with a cell
is just Name; also a duplicate-header instance, headers A, A with row
x, y, whose keys collapse to the single key A (with the later cell's
value, by dict overwrite). -/
theorem claim_C8_witness :
    ((["Name", "Price"] : List String).Nodup ∧
      scrape_table_data ["Name", "Price"] [["Widget"]] = [[("Name", "Widget")]]) ∧
    (("Price" ∈ record_keys (row_record ["Name", "Price"] ["Widget"])) ↔
      "Price" ∈ (["Name", "Price"] : List String).take 1) ∧
    (("A" ∈ record_keys (row_record ["A", "A"] ["x", "y"])) ↔
      "A" ∈ (["A", "A"] : List String).take 2) ∧
    row_record ["A", "A"] ["x", "y"] = [("A", "y")] := by
  refine ⟨⟨by decide, ?_⟩, ?_, ?_, rfl⟩
  · have h := (claim_C8 ["Name", "Price"] [["Widget"]]).2.2.2 (by decide)
    simpa using h
  · have h := (claim_C8 ["Name", "Price"] [["Widget"]]).2.1 ["Widget"] "Price"
    simpa using h
  · have h := (claim_C8 ["A", "A"] []).2.1 ["x", "y"] "A"
    simpa using h

theorem exceptMapM_ok {α β : Type} (f : α → Except String β) (g : α → β) :
    ∀ l : List α, (∀ x ∈ l, f x = .ok (g x)) → l.mapM f = .ok (l.map g) := by
  intro l
  induction l with
  | nil => intro _; rfl
  | cons x xs ih =>
    intro h
    rw [List.mapM_cons, h x (by simp), ih (fun y hy => h y (by simp [hy]))]
    rfl

theorem lookupD_cons_self (k v : String) (r : List (String × String)) :
    lookupD ((k, v) :: r) k = v := by
  simp [lookupD, List.find?]

theorem lookupD_cons_ne (k v q : String) (r : List (String × String)) (h : q ≠ k) :
    lookupD ((k, v) :: r) q = lookupD r q := by
  have : (k == q) = false := by
    rw [beq_eq_false_iff_ne]; exact fun he => h he.symm
  simp [lookupD, List.find?, this]

theorem zip_keys_lookup :
    ∀ r : List (String × String), (record_keys r).Nodup →
      (record_keys r).zip ((record_keys r).map (fun k => lookupD r k)) = r := by
  intro r
  induction r with
  | nil => intro _; rfl
  | cons p r ih =>
    intro hnd
    obtain ⟨k, v⟩ := p
    have hk : record_keys ((k, v) :: r) = k :: record_keys r := rfl
    rw [hk] at hnd ⊢
    have hnotmem : k ∉ record_keys r := by
      simp [List.nodup_cons] at hnd; exact hnd.1
    have hnd2 : (record_keys r).Nodup := by
      simp [List.nodup_cons] at hnd; exact hnd.2
    have hmap : (record_keys r).map (fun q => lookupD ((k, v) :: r) q)
        = (record_keys r).map (fun q => lookupD r q) := by
      apply List.map_congr_left
      intro q hq
      exact lookupD_cons_ne k v q r (fun he => hnotmem (he ▸ hq))
    simp only [List.map_cons, lookupD_cons_self, hmap, List.zip_cons_cons]
    rw [ih hnd2]

theorem json_record_back_dump (r : List (String × String)) :
    json_record_back (.obj (r.map (fun p => (p.1, .str p.2)))) = some r := by
  rw [json_record_back]
  induction r with
  | nil => rfl
  | cons p r ih =>
    rw [List.map_cons, List.mapM_cons]
    obtain ⟨k, v⟩ := p
    simp only [json_field_back]
    rw [ih]
    rfl

theorem json_round_trip (data : List (List (String × String))) :
    json_load_records (json_dump data) = some data := by
  rw [json_dump, json_load_records]
  induction data with
  | nil => rfl
  | cons r rs ih =>
    rw [List.map_cons, List.mapM_cons, json_record_back_dump r, ih]
    rfl

/-- C9: the claim states that both the row-oriented tabular serialization
(save_to_csv) and the nested-value serialization (save_to_json) are
lossless round-trips for every record sequence.  On the code the CSV leg
is lossy: DictWriter renders a field missing from a record as the empty
string, and DictReader reads that cell back as an empty-string field, so
the sequence with records having Name+Price and then Name alone reads
back with a spurious Price field — not the original sequence. -/
theorem claim_C9_counterexample :
    csv_round_trip [[("Name", "W"), ("Price", "1")], [("Name", "X")]]
      = .ok [[("Name", "W"), ("Price", "1")], [("Name", "X"), ("Price", "")]] ∧
    csv_round_trip [[("Name", "W"), ("Price", "1")], [("Name", "X")]]
      ≠ .ok [[("Name", "W"), ("Price", "1")], [("Name", "X")]] := by
  have h1 : csv_round_trip [[("Name", "W"), ("Price", "1")], [("Name", "X")]]
      = .ok [[("Name", "W"), ("Price", "1")], [("Name", "X"), ("Price", "")]] := rfl
  refine ⟨h1, ?_⟩
  rw [h1]
  intro h
  simp at h

/-- C9 (amended): the JSON leg is a lossless round-trip for every record
sequence; the CSV leg is a lossless round-trip only for nonempty record
sequences in which every record has exactly the first record's
(duplicate-free) key sequence — in general a field missing from a record
is rendered empty and reads back as an empty-string field (and a field
absent from the first record raises ValueError). -/
theorem claim_C9_amended (data : List (List (String × String))) (fn : List String)
    (hne : data ≠ []) (hkeys : ∀ r ∈ data, record_keys r = fn) (hnd : fn.Nodup) :
    (∀ d : List (List (String × String)), json_load_records (json_dump d) = some d) ∧
    csv_round_trip data = .ok data := by
  refine ⟨json_round_trip, ?_⟩
  obtain ⟨r0, rest, rfl⟩ : ∃ r0 rest, data = r0 :: rest := by
    cases data with
    | nil => exact absurd rfl hne
    | cons a l => exact ⟨a, l, rfl⟩
  have hfn0 : record_keys r0 = fn := hkeys r0 (by simp)
  have hrow : ∀ r ∈ r0 :: rest, writeRow (record_keys r0) r
      = .ok (fn.map (fun k => lookupD r k)) := by
    intro r hr
    have hkr : record_keys r = fn := hkeys r hr
    have hall : (r.all fun p => (record_keys r0).contains p.1) = true := by
      rw [hfn0, List.all_eq_true]
      intro p hp
      have hmem : p.1 ∈ fn := by
        rw [← hkr]
        exact List.mem_map_of_mem Prod.fst hp
      exact List.elem_eq_true_of_mem hmem
    rw [writeRow]
    rw [if_pos hall, hfn0]
  have hmapM := exceptMapM_ok (writeRow (record_keys r0))
    (fun r => fn.map (fun k => lookupD r k)) (r0 :: rest) hrow
  rw [csv_round_trip, save_to_csv, hmapM]
  simp only [csv_read, List.map_map]
  rw [hfn0]
  congr 1
  calc List.map ((fun row => fn.zip row) ∘ fun r => List.map (fun k => lookupD r k) fn)
        (r0 :: rest)
      = List.map id (r0 :: rest) := by
        apply List.map_congr_left
        intro r hr
        simp only [Function.comp_apply, id_eq]
        have hkr : record_keys r = fn := hkeys r hr
        have hz := zip_keys_lookup r (by rw [hkr]; exact hnd)
        rwa [hkr] at hz
    _ = r0 :: rest := List.map_id _

/-- C9 (amended) witness: two records sharing the key sequence Name,
Price round-trip through both formats unchanged. -/
theorem claim_C9_amended_witness :
    (([[("Name", "W"), ("Price", "1")], [("Name", "X"), ("Price", "2")]] :
        List (List (String × String))) ≠ [] ∧
      (["Name", "Price"] : List String).Nodup) ∧
    json_load_records (json_dump [[("Name", "W"), ("Price", "1")], [("Name", "X"), ("Price", "2")]])
      = some [[("Name", "W"), ("Price", "1")], [("Name", "X"), ("Price", "2")]] ∧
    csv_round_trip [[("Name", "W"), ("Price", "1")], [("Name", "X"), ("Price", "2")]]
      = .ok [[("Name", "W"), ("Price", "1")], [("Name", "X"), ("Price", "2")]] := by
  have h := claim_C9_amended
    [[("Name", "W"), ("Price", "1")], [("Name", "X"), ("Price", "2")]]
    ["Name", "Price"] (by decide)
    (by intro r hr; simp at hr; rcases hr with rfl | rfl <;> rfl) (by decide)
  exact ⟨⟨by decide, by decide⟩, h.1 _, h.2⟩

/-- C10: extraction of embedded structured data never aborts on a mix of
parseable and malformed payloads: every malformed block is skipped
individually, the result is the first block in page order that parses,
and the empty dict is returned when no block parses. -/
theorem claim_C10 (xs : List (Option Jval)) (hxs : ∀ p ∈ xs, p = none) :
    (∀ (v : Jval) (ys : List (Option Jval)),
      extract_structured_data (xs ++ some v :: ys) = v) ∧
    extract_structured_data xs = .obj [] := by
  induction xs with
  | nil => exact ⟨fun v ys => rfl, rfl⟩
  | cons p xs ih =>
    have hp : p = none := hxs p (by simp)
    subst hp
    have ih2 := ih (fun q hq => hxs q (by simp [hq]))
    refine ⟨fun v ys => ?_, ?_⟩
    · rw [List.cons_append, extract_structured_data]
      exact ih2.1 v ys
    · rw [extract_structured_data]
      exact ih2.2

/-- C10 witness: two malformed blocks followed by a parseable block and a
further malformed one yield the parseable block's value; two malformed
blocks alone yield the empty dict. -/
theorem claim_C10_witness :
    (∀ p ∈ ([none, none] : List (Option Jval)), p = none) ∧
    extract_structured_data [none, none, some (.str "ok"), none] = .str "ok" ∧
    extract_structured_data [none, none] = .obj [] := by
  have hx : ∀ p ∈ ([none, none] : List (Option Jval)), p = none := by
    intro p hp
    simp only [List.mem_cons, List.not_mem_nil, or_false] at hp
    rcases hp with rfl | rfl <;> rfl
  refine ⟨hx, ?_, (claim_C10 [none, none] hx).2⟩
  have h := (claim_C10 [none, none] hx).1 (.str "ok") [none]
  simpa using h
